import Mathlib

/-!
# Verification of the quiz service (`main.py`)

A shallow embedding of the quiz service: the pydantic `Question` and
`UserAnswer` validators, the free-text question parser
`parse_questions_from_text`, the JSON store loader
`load_all_questions_from_json`, the selector `select_questions`, and the
answer-checking handler `check_user_answer`.

Python strings are modelled as `List Char`; Python `dict`s as association
lists with unique keys built by `dictInsert` (assignment semantics:
overwrite in place, otherwise append).  Case mapping and the whitespace
class are modelled for ASCII, which covers every character class the
source's regular expressions and the quiz data use.  Fallible code is
modelled with `Option`/`Except`: a caught-and-skipped exception becomes
`none`, an uncaught exception becomes an `Except.error`.
-/

/-- Convenience: the character list of a string literal. -/
def chars (s : String) : List Char := s.toList

/-- ASCII model of Python's whitespace class (`str.strip`, regex class for
whitespace). -/
def pyIsSpace (c : Char) : Bool :=
  c = ' ' || c = '\t' || c = '\n' || c = '\r' || c = '\x0b' || c = '\x0c'

/-- ASCII decimal digit (regex digit class). -/
def pyIsDigit (c : Char) : Bool :=
  '0' ≤ c && c ≤ '9'

/-- ASCII model of Python's `str.lower` on a single character. -/
def pyLowerChar (c : Char) : Char :=
  match c with
  | 'A' => 'a' | 'B' => 'b' | 'C' => 'c' | 'D' => 'd' | 'E' => 'e'
  | 'F' => 'f' | 'G' => 'g' | 'H' => 'h' | 'I' => 'i' | 'J' => 'j'
  | 'K' => 'k' | 'L' => 'l' | 'M' => 'm' | 'N' => 'n' | 'O' => 'o'
  | 'P' => 'p' | 'Q' => 'q' | 'R' => 'r' | 'S' => 's' | 'T' => 't'
  | 'U' => 'u' | 'V' => 'v' | 'W' => 'w' | 'X' => 'x' | 'Y' => 'y'
  | 'Z' => 'z'
  | c => c

/-- ASCII model of Python's `str.upper` on a single character. -/
def pyUpperChar (c : Char) : Char :=
  match c with
  | 'a' => 'A' | 'b' => 'B' | 'c' => 'C' | 'd' => 'D' | 'e' => 'E'
  | 'f' => 'F' | 'g' => 'G' | 'h' => 'H' | 'i' => 'I' | 'j' => 'J'
  | 'k' => 'K' | 'l' => 'L' | 'm' => 'M' | 'n' => 'N' | 'o' => 'O'
  | 'p' => 'P' | 'q' => 'Q' | 'r' => 'R' | 's' => 'S' | 't' => 'T'
  | 'u' => 'U' | 'v' => 'V' | 'w' => 'W' | 'x' => 'X' | 'y' => 'Y'
  | 'z' => 'Z'
  | c => c

/-- `str.lower` on a whole string. -/
def pyLower (l : List Char) : List Char := l.map pyLowerChar

/-- `str.upper` on a whole string. -/
def pyUpper (l : List Char) : List Char := l.map pyUpperChar

/-- `str.strip()`: remove leading and trailing whitespace. -/
def pyStrip (l : List Char) : List Char :=
  ((l.dropWhile pyIsSpace).reverse.dropWhile pyIsSpace).reverse

/-- `str.split("\n")`: split on every newline, keeping empty pieces
(`"".split("\n") == [""]`). -/
def splitLines (l : List Char) : List (List Char) :=
  l.foldr
    (fun c acc =>
      match acc with
      | cur :: rest => if c = '\n' then [] :: cur :: rest else (c :: cur) :: rest
      | [] => [[c]])
    [[]]

/-- Python `dict` assignment `d[k] = v` on an association list: overwrite the
value in place if the key is present, otherwise append the pair. -/
def dictInsert {V : Type} (d : List (List Char × V)) (k : List Char) (v : V) :
    List (List Char × V) :=
  if d.any (fun kv => kv.1 = k) then
    d.map (fun kv => if kv.1 = k then (k, v) else kv)
  else
    d ++ [(k, v)]

/-- Python `dict.get k` on an association list (first matching key; lists
built with `dictInsert` have unique keys). -/
def dictGet {V : Type} (d : List (List Char × V)) (k : List Char) : Option V :=
  (d.find? (fun kv => kv.1 = k)).map (fun kv => kv.2)

/-! ## The `Question` model and validator (`main.py` lines 45-69)

`Question` is a pydantic model with fields `question` (`min_length=1`),
`options` (`dict[str, str]`, a field validator requires exactly four keys,
key set `{A, B, C, D}`, every value non-empty after `strip()`), `answer`
(`min_length=1, max_length=1`, a field validator requires membership in the
validated options map), and `difficulty` (`min_length=1`).  Construction
succeeds iff every field check passes. -/

structure Question where
  question : List Char
  options : List (List Char × List Char)
  answer : List Char
  difficulty : List Char
deriving DecidableEq, Repr

/-- The four legal option keys, in order. -/
def optionKeys : List (List Char) := [['A'], ['B'], ['C'], ['D']]

/-- The `validate_options` field validator: exactly 4 entries, key set equal
to `{A, B, C, D}` (mutual inclusion of key sets), every value non-empty
after `strip()`.  (The `isinstance(value, str)` check is type-level here.) -/
def optionsOk (v : List (List Char × List Char)) : Bool :=
  v.length = 4 &&
  (v.map Prod.fst).all (fun k => decide (k ∈ optionKeys)) &&
  optionKeys.all (fun k => decide (k ∈ v.map Prod.fst)) &&
  v.all (fun kv => !(pyStrip kv.2).isEmpty)

/-- The conjunction of all pydantic checks on a candidate record:
`question` length ≥ 1, options valid, `answer` exactly one character and a
key of the options map, `difficulty` length ≥ 1. -/
def questionValid (q : List Char) (opts : List (List Char × List Char))
    (ans diff : List Char) : Bool :=
  !q.isEmpty &&
  optionsOk opts &&
  (ans.length = 1 && decide (ans ∈ opts.map Prod.fst)) &&
  !diff.isEmpty

/-- `Question(**data)` for string-typed fields: a validated `Question`, or
`none` when pydantic raises `ValidationError`. -/
def mkQuestion (q : List Char) (opts : List (List Char × List Char))
    (ans diff : List Char) : Option Question :=
  if questionValid q opts ans diff then some ⟨q, opts, ans, diff⟩ else none

/-- Validity of an already-built `Question` record. -/
def questionOk (Q : Question) : Bool :=
  questionValid Q.question Q.options Q.answer Q.difficulty

theorem mkQuestion_valid {q opts ans diff Q} :
    mkQuestion q opts ans diff = some Q →
    Q = ⟨q, opts, ans, diff⟩ ∧ questionOk Q = true := by
  unfold mkQuestion
  split
  · intro h
    cases h
    exact ⟨rfl, by assumption⟩
  · intro h
    cases h

/-! ## The text parser (`main.py` lines 116-191)

The parser locates the first case-insensitive match of the pattern
"Question", optional whitespace, optional digits, colon (`re.search`),
drops everything before it, splits the remainder on every further match of
the same pattern with trailing whitespace consumed (`re.split`), and
processes each block: the first non-blank stripped line is the question
text, each later non-blank line is tested (in this order) against the
option pattern, the difficulty pattern, and the correct-answer pattern.
The accumulated candidate is validated; a failing block is skipped.

The greedy regex pieces are deterministic here because the character
classes involved (whitespace, digits, asterisks, letters, the colon) are
pairwise disjoint at every backtracking point, so each is modelled as a
maximal `dropWhile`. -/

/-- Match a literal pattern case-insensitively at the head of the input
(the pattern is given lower-case); return the rest on success. -/
def stripCI : List Char → List Char → Option (List Char)
  | [], cs => some cs
  | _ :: _, [] => none
  | p :: ps, c :: cs => if pyLowerChar c = p then stripCI ps cs else none

/-- One match of the marker pattern "Question", `\s*`, `\d*`, `:`
(case-insensitive) at the head of the input; returns the text after the
colon. -/
def matchMarker (cs : List Char) : Option (List Char) :=
  match stripCI (chars "question") cs with
  | none => none
  | some cs1 =>
    match (cs1.dropWhile pyIsSpace).dropWhile pyIsDigit with
    | ':' :: rest => some rest
    | _ => none

/-- The split pattern additionally consumes trailing whitespace
(`Question\s*\d*:\s*`). -/
def matchMarkerSplit (cs : List Char) : Option (List Char) :=
  (matchMarker cs).map (fun r => r.dropWhile pyIsSpace)

theorem stripCI_length {p cs r : List Char} :
    stripCI p cs = some r → r.length + p.length = cs.length := by
  induction p generalizing cs with
  | nil =>
    intro h
    cases cs <;> simp [stripCI] at h <;> simp [h]
  | cons p ps ih =>
    intro h
    cases cs with
    | nil => simp [stripCI] at h
    | cons c cs' =>
      simp only [stripCI] at h
      split at h
      · have := ih h
        simp only [List.length_cons]
        omega
      · cases h

theorem matchMarker_length {cs r : List Char} :
    matchMarker cs = some r → r.length + 9 ≤ cs.length := by
  unfold matchMarker
  intro h
  split at h
  · cases h
  case _ cs1 h1 =>
    have hlen : cs1.length + 8 = cs.length := stripCI_length h1
    split at h
    case _ rest h2 =>
      cases h
      have d1 : ((cs1.dropWhile pyIsSpace).dropWhile pyIsDigit).length ≤ cs1.length :=
        le_trans ((List.dropWhile_sublist _).length_le) ((List.dropWhile_sublist _).length_le)
      rw [h2] at d1
      simp only [List.length_cons] at d1
      omega
    · cases h

theorem matchMarkerSplit_length {cs r : List Char} :
    matchMarkerSplit cs = some r → r.length < cs.length := by
  unfold matchMarkerSplit
  intro h
  cases hm : matchMarker cs with
  | none => rw [hm] at h; cases h
  | some r0 =>
    rw [hm] at h
    simp only [Option.map_some'] at h
    cases h
    have h1 := matchMarker_length hm
    have h2 : (r0.dropWhile pyIsSpace).length ≤ r0.length := (List.dropWhile_sublist _).length_le
    omega

/-- `re.search` for the marker pattern: the suffix of the input beginning at
the first position where the marker matches (the slice
`ai_generated_text[first_question_match.start():]`), or `none`. -/
def findMarker : List Char → Option (List Char)
  | [] => none
  | c :: cs =>
    if (matchMarker (c :: cs)).isSome then some (c :: cs) else findMarker cs

/-- `re.split` on the marker-with-trailing-whitespace pattern: scan left to
right, cut at every non-overlapping match.  Structural recursion on a fuel
bounded by the input length: each step either consumes one character or,
by `matchMarkerSplit_length`, strictly shortens the text, so a fuel of
`length + 1` never runs out and the fuel-exhausted branch is
unreachable. -/
def splitMarkerGo (fuel : Nat) (acc : List Char) (cs : List Char) :
    List (List Char) :=
  match fuel with
  | 0 => [acc.reverse ++ cs]
  | fuel + 1 =>
    match cs with
    | [] => [acc.reverse]
    | c :: cs' =>
      match matchMarkerSplit (c :: cs') with
      | some rest => acc.reverse :: splitMarkerGo fuel [] rest
      | none => splitMarkerGo fuel (c :: acc) cs'

/-- `re.split(r"Question\s*\d*:\s*", text)`. -/
def splitMarker (cs : List Char) : List (List Char) :=
  splitMarkerGo (cs.length + 1) [] cs

/-- Is `c` (already upper-cased) one of the option letters. -/
def isOptionLetter (c : Char) : Bool :=
  c = 'A' || c = 'B' || c = 'C' || c = 'D'

/-- `re.match` of the option pattern: `\s*`, a letter A-D (case-insensitive),
a closing parenthesis, `\s*`, then the captured rest of the line
(group 1). -/
def optionMatch (line : List Char) : Option (List Char) :=
  match line.dropWhile pyIsSpace with
  | c :: ')' :: rest =>
    if isOptionLetter (pyUpperChar c) then some (rest.dropWhile pyIsSpace) else none
  | _ => none

/-- `re.match` of the difficulty pattern: `\s*`, `\**`, the literal
"Difficulty:" (case-insensitive), `\s*`, `\**`, `\s*`, then the captured
rest of the line (group 1). -/
def difficultyMatch (line : List Char) : Option (List Char) :=
  match stripCI (chars "difficulty:")
      ((line.dropWhile pyIsSpace).dropWhile (fun c => c = '*')) with
  | none => none
  | some r =>
    some (((r.dropWhile pyIsSpace).dropWhile (fun c => c = '*')).dropWhile pyIsSpace)

/-- `re.match` of the correct-answer pattern: `\s*`, `\**`, the literal
"Correct Answer:" (case-insensitive), `\s*`, `\**`, `\s*`, then a captured
single letter A-D (case-insensitive). -/
def answerMatch (line : List Char) : Option Char :=
  match stripCI (chars "correct answer:")
      ((line.dropWhile pyIsSpace).dropWhile (fun c => c = '*')) with
  | none => none
  | some r =>
    match ((r.dropWhile pyIsSpace).dropWhile (fun c => c = '*')).dropWhile pyIsSpace with
    | c :: _ => if isOptionLetter (pyUpperChar c) then some c else none
    | [] => none

/-- The accumulating per-block state: the options map, the correct answer,
and the difficulty (later matches of the same kind overwrite earlier
ones). -/
structure ScanState where
  options : List (List Char × List Char)
  answer : List Char
  difficulty : List Char
deriving DecidableEq, Repr

/-- One iteration of the per-line loop: test the option pattern, then the
difficulty pattern, then the answer pattern; the first match contributes to
the state.  The option key is `line.strip()[0].upper()`, the stored option
value and difficulty are stripped, the difficulty additionally
lower-cased, the answer letter upper-cased. -/
def scanLine (s : ScanState) (line : List Char) : ScanState :=
  match optionMatch line with
  | some txt =>
    match pyStrip line with
    | k :: _ => { s with options := dictInsert s.options [pyUpperChar k] (pyStrip txt) }
    | [] => s
  | none =>
    match difficultyMatch line with
    | some txt => { s with difficulty := pyLower (pyStrip txt) }
    | none =>
      match answerMatch line with
      | some c => { s with answer := [pyUpperChar c] }
      | none => s

/-- The scan of all lines after the question line. -/
def collectLines (lines : List (List Char)) : ScanState :=
  lines.foldl scanLine ⟨[], [], []⟩

/-- The stripped non-blank lines of a (stripped) block, in order. -/
def blockLines (block : List Char) : List (List Char) :=
  ((splitLines (pyStrip block)).map pyStrip).filter (fun l => !l.isEmpty)

/-- Process one block of the split text: skip the block when it is blank or
has no non-blank line; otherwise the first non-blank line is the question
text, the rest are scanned, and the candidate is validated.  `none` models
the `continue` paths and a caught `ValidationError`. -/
def processBlock (block : List Char) : Option Question :=
  if pyStrip block = [] then none
  else
    match blockLines block with
    | [] => none
    | qt :: rest =>
      let st := collectLines rest
      mkQuestion qt st.options st.answer st.difficulty

/-- The per-block loop of `parse_questions_from_text`: validated questions
in block order, failing blocks skipped. -/
def parseBlocks (bs : List (List Char)) : List Question :=
  bs.filterMap processBlock

/-- `parse_questions_from_text` (`main.py` lines 116-191). -/
def parse_questions_from_text (t : List Char) : List Question :=
  match findMarker t with
  | none => []
  | some rest => parseBlocks (splitMarker rest)

/-! ## The selector (`main.py` lines 226-244)

`select_questions(all_quiz_questions, num_questions, difficulty)` filters by
difficulty when `difficulty` is truthy (non-`None` and non-empty), then
either returns a `random.sample` of exactly `num_questions` distinct
elements when the filtered list is strictly larger, or the filtered list
itself.  `random.sample(pop, k)` is abstracted by its documented contract:
the result is a permutation of a length-`k` sublist of the population
(`k` elements chosen without replacement), expressed with
`List.Subperm`. -/

/-- The difficulty filter: with a truthy difficulty, keep the questions
whose difficulty is truthy and equal to it lower-cased
(`q.get("difficulty") and q["difficulty"].lower() == difficulty.lower()`);
otherwise keep everything. -/
def difficultyFiltered (all : List Question) (difficulty : Option (List Char)) :
    List Question :=
  match difficulty with
  | none => all
  | some d =>
    if d = [] then all
    else all.filter (fun q => !q.difficulty.isEmpty && pyLower q.difficulty = pyLower d)

/-- The input/output relation of `select_questions`: `r` is a possible
return value for the given arguments.  The only nondeterminism is
`random.sample`, abstracted as above. -/
def SelectSpec (all : List Question) (num : Nat) (difficulty : Option (List Char))
    (r : List Question) : Prop :=
  if num < (difficultyFiltered all difficulty).length then
    r.length = num ∧ r.Subperm (difficultyFiltered all difficulty)
  else
    r = difficultyFiltered all difficulty

/-! ## The JSON store loader (`main.py` lines 194-223)

The outside world is modelled as `Option (Option Json)`: `none` is a
missing file (`os.path.exists` false), `some none` a present file whose
content `json.load` rejects (`json.JSONDecodeError`, caught), and
`some (some j)` a present file parsing to the JSON value `j`.

For a parsed value the code runs `for question_data in raw_questions` and,
per element, `Question(**question_data)` inside `try/except Exception`;
the except handler evaluates
`question_data.get("question", "N/A")[:50]`, which itself raises an
uncaught exception when `question_data` is not a dict (`AttributeError`
from `.get`) or when its `"question"` value is neither sliceable string
nor list (`TypeError` from `[:50]`).  Iterating a non-iterable top-level
value (number, boolean, null) raises an uncaught `TypeError`. -/

inductive Json where
  | null : Json
  | bool (b : Bool) : Json
  | num (n : Int) : Json
  | str (s : List Char) : Json
  | arr (items : List Json) : Json
  | obj (fields : List (List Char × Json)) : Json
deriving Repr

/-- Uncaught exceptions escaping `load_all_questions_from_json`. -/
inductive LoadErr where
  | typeError : LoadErr
  | attributeError : LoadErr
deriving DecidableEq, Repr

/-- The dict produced by `json.load` for a JSON object: pairs inserted in
order, a duplicated key overwriting its earlier value. -/
def jsonObjToDict (fields : List (List Char × Json)) : List (List Char × Json) :=
  fields.foldl (fun d kv => dictInsert d kv.1 kv.2) []

/-- `dict[str, str]` validation of the options object: every value must be
a string (pydantic v2 does not coerce numbers or booleans to `str`). -/
def optionsFromJson : List (List Char × Json) → Option (List (List Char × List Char))
  | [] => some []
  | (k, Json.str s) :: rest => (optionsFromJson rest).map (fun r => (k, s) :: r)
  | _ :: _ => none

/-- `Question(**question_data)` for a JSON object element: the four fields
must be present with string-typed contents (`options` an object of
strings), then the validator of `mkQuestion` runs.  Extra fields are
ignored (pydantic default).  `none` is a `ValidationError`. -/
def jsonToQuestion (fields : List (List Char × Json)) : Option Question :=
  match dictGet (jsonObjToDict fields) (chars "question"),
      dictGet (jsonObjToDict fields) (chars "options"),
      dictGet (jsonObjToDict fields) (chars "answer"),
      dictGet (jsonObjToDict fields) (chars "difficulty") with
  | some (Json.str q), some (Json.obj optFields), some (Json.str a),
      some (Json.str df) =>
    match optionsFromJson (jsonObjToDict optFields) with
    | some opts => mkQuestion q opts a df
    | none => none
  | _, _, _, _ => none

/-- Can `x[:50]` be evaluated without raising (`str` and `list` can; other
JSON values cannot). -/
def sliceable : Json → Bool
  | Json.str _ => true
  | Json.arr _ => true
  | _ => false

/-- One iteration of the element loop: `ok (some q)` appends a validated
question, `ok none` is a logged-and-skipped `ValidationError`, `error` is
an exception escaping the except handler itself. -/
def processElement (e : Json) : Except LoadErr (Option Question) :=
  match e with
  | Json.obj fields =>
    match jsonToQuestion fields with
    | some q => Except.ok (some q)
    | none =>
      match dictGet (jsonObjToDict fields) (chars "question") with
      | none => Except.ok none
      | some v => if sliceable v then Except.ok none else Except.error LoadErr.typeError
  | _ => Except.error LoadErr.attributeError

/-- The element loop over the parsed top-level array. -/
def loadItems : List Json → Except LoadErr (List Question)
  | [] => Except.ok []
  | e :: rest =>
    match processElement e with
    | Except.error err => Except.error err
    | Except.ok none => loadItems rest
    | Except.ok (some q) => (loadItems rest).map (fun qs => q :: qs)

/-- `load_all_questions_from_json` (`main.py` lines 194-223).  A missing
file and a JSON decode failure both yield the empty collection; a parsed
array runs the element loop; iterating a parsed string or object visits
its characters or keys, none of which is a dict, so the first one makes
the except handler raise `AttributeError` (empty ones finish with no
element); a number, boolean or null is not iterable and raises
`TypeError`. -/
def load_all_questions_from_json (file : Option (Option Json)) :
    Except LoadErr (List Question) :=
  match file with
  | none => Except.ok []
  | some none => Except.ok []
  | some (some (Json.arr items)) => loadItems items
  | some (some (Json.str [])) => Except.ok []
  | some (some (Json.str (_ :: _))) => Except.error LoadErr.attributeError
  | some (some (Json.obj [])) => Except.ok []
  | some (some (Json.obj (_ :: _))) => Except.error LoadErr.attributeError
  | some (some _) => Except.error LoadErr.typeError

/-! ## `UserAnswer` and the answer-check handler (`main.py` lines 72-80 and
276-311) -/

/-- The validated `UserAnswer` request body: `question_index` (`ge=0`) and
`user_option` (one character, upper-cased by the field validator). -/
structure UserAnswer where
  question_index : Int
  user_option : List Char
deriving DecidableEq, Repr

/-- `UserAnswer(**body)`: `question_index ≥ 0`, `user_option` exactly one
character whose upper-case form is one of A/B/C/D; the stored option is
upper-cased. -/
def mkUserAnswer (idx : Int) (opt : List Char) : Option UserAnswer :=
  if 0 ≤ idx ∧ opt.length = 1 ∧ pyUpper opt ∈ optionKeys then
    some ⟨idx, pyUpper opt⟩
  else none

/-- The `HTTPException`s the answer-check handler can raise. -/
inductive HttpErr where
  | invalidIndex : HttpErr
  | missingAnswer : HttpErr
deriving DecidableEq, Repr

/-- The HTTP status code of each handler failure. -/
def statusCode : HttpErr → Nat
  | HttpErr.invalidIndex => 400
  | HttpErr.missingAnswer => 500

/-- The JSON body of a successful answer check. -/
structure CheckResponse where
  question_index : Int
  user_answer : List Char
  is_correct : Bool
  correct_answer : List Char
deriving DecidableEq, Repr

/-- The handler's `correct_answer` computation:
`loaded_questions[idx]["answer"].strip().upper()`. -/
def storedAnswerAt (qs : List Question) (i : Nat) (h : i < qs.length) : List Char :=
  pyUpper (pyStrip (qs.get ⟨i, h⟩).answer)

/-- `check_user_answer` (`main.py` lines 276-311): bounds-check the index
(400 on failure), fetch the stored record, strip-and-upper its answer,
fail with 500 when that is empty, otherwise compare with the submitted
option. -/
def check_user_answer (qs : List Question) (a : UserAnswer) :
    Except HttpErr CheckResponse :=
  if h : a.question_index < 0 ∨ (qs.length : Int) ≤ a.question_index then
    Except.error HttpErr.invalidIndex
  else if storedAnswerAt qs a.question_index.toNat (by push_neg at h; omega) = [] then
    Except.error HttpErr.missingAnswer
  else
    Except.ok ⟨a.question_index, a.user_option,
      decide (a.user_option =
        storedAnswerAt qs a.question_index.toNat (by push_neg at h; omega)),
      storedAnswerAt qs a.question_index.toNat (by push_neg at h; omega)⟩

/-! ## Helper lemmas -/

theorem chars_A : chars "A" = ['A'] := rfl

theorem chars_B : chars "B" = ['B'] := rfl

theorem chars_C : chars "C" = ['C'] := rfl

theorem chars_D : chars "D" = ['D'] := rfl

theorem isEmpty_false_iff {α : Type} {l : List α} : l.isEmpty = false ↔ l ≠ [] := by
  cases l <;> simp

theorem mem_optionKeys_iff {x : List Char} :
    x ∈ optionKeys ↔ x = ['A'] ∨ x = ['B'] ∨ x = ['C'] ∨ x = ['D'] := by
  simp [optionKeys]

theorem mkQuestion_isSome_iff {q opts ans diff} :
    (mkQuestion q opts ans diff).isSome = true ↔
    questionValid q opts ans diff = true := by
  unfold mkQuestion
  split <;> simp_all

theorem optionKey_length {x : List Char} (h : x ∈ optionKeys) : x.length = 1 := by
  rcases mem_optionKeys_iff.1 h with h | h | h | h <;> subst h <;> rfl

/-- A valid question's answer is one of the four option keys. -/
theorem questionOk_answer_mem {Q : Question} (h : questionOk Q = true) :
    Q.answer ∈ optionKeys := by
  unfold questionOk questionValid optionsOk at h
  simp only [Bool.and_eq_true, List.all_eq_true, decide_eq_true_eq] at h
  obtain ⟨⟨⟨_, ⟨⟨_, hkeys⟩, _⟩, _⟩, _, hmem⟩, _⟩ := h
  exact hkeys _ hmem

theorem optionKey_strip_upper_ne_nil {x : List Char} (h : x ∈ optionKeys) :
    pyUpper (pyStrip x) ≠ [] := by
  rcases mem_optionKeys_iff.1 h with h | h | h | h <;> subst h <;> decide

/-! ## C1 — the Question validator -/

/-- C1 (claim as stated, refuted): the claim requires the validator to
reject a record whose question text is blank after trimming, but pydantic's
`min_length=1` counts raw characters without trimming: the record with
question `" "`, options `{A: "1", B: "2", C: "3", D: "4"}`, answer `"A"`,
difficulty `"easy"` is accepted although its question strips to the empty
string. -/
theorem validator_trim_counterexample :
    (mkQuestion (chars " ")
        [(chars "A", chars "1"), (chars "B", chars "2"),
         (chars "C", chars "3"), (chars "D", chars "4")]
        (chars "A") (chars "easy")).isSome = true ∧
    pyStrip (chars " ") = [] := by
  decide

/-- C1 (amended): the validator accepts a candidate record iff the option
key set is exactly `{A, B, C, D}` (with exactly four entries), every option
value is non-blank after trimming, the answer is a key of the options map,
and the question text and difficulty text are non-empty — without
trimming, so a whitespace-only question or difficulty is accepted. -/
theorem validator_accepts_iff (q : List Char)
    (opts : List (List Char × List Char)) (ans diff : List Char)
    (hnd : (opts.map Prod.fst).Nodup) :
    (mkQuestion q opts ans diff).isSome = true ↔
      ((opts.map Prod.fst).toFinset =
          ({['A'], ['B'], ['C'], ['D']} : Finset (List Char)) ∧
       (∀ kv ∈ opts, pyStrip kv.2 ≠ []) ∧
       ans ∈ opts.map Prod.fst ∧ q ≠ [] ∧ diff ≠ []) := by
  rw [mkQuestion_isSome_iff]
  unfold questionValid optionsOk
  simp only [Bool.and_eq_true, List.all_eq_true, decide_eq_true_eq,
    Bool.not_eq_true', isEmpty_false_iff]
  constructor
  · rintro ⟨⟨⟨hq, ⟨⟨hlen, hforw⟩, hback⟩, hvals⟩, hans1, hansmem⟩, hdiff⟩
    refine ⟨?_, ?_, hansmem, hq, hdiff⟩
    · apply Finset.ext
      intro x
      simp only [List.mem_toFinset, Finset.mem_insert, Finset.mem_singleton]
      constructor
      · intro hx
        exact mem_optionKeys_iff.1 (hforw x hx)
      · intro hx
        exact hback x (mem_optionKeys_iff.2 hx)
    · intro kv hkv
      exact hvals kv hkv
  · rintro ⟨hset, hvals, hansmem, hq, hdiff⟩
    have hforw : ∀ x ∈ opts.map Prod.fst, x ∈ optionKeys := by
      intro x hx
      have : x ∈ (opts.map Prod.fst).toFinset := List.mem_toFinset.2 hx
      rw [hset] at this
      simp only [Finset.mem_insert, Finset.mem_singleton] at this
      exact mem_optionKeys_iff.2 this
    have hback : ∀ x ∈ optionKeys, x ∈ opts.map Prod.fst := by
      intro x hx
      have : x ∈ (opts.map Prod.fst).toFinset := by
        rw [hset]
        simp only [Finset.mem_insert, Finset.mem_singleton]
        exact mem_optionKeys_iff.1 hx
      exact List.mem_toFinset.1 this
    have hlen : (opts.map Prod.fst).length = 4 := by
      have h1 := List.toFinset_card_of_nodup hnd
      rw [hset] at h1
      have h2 : ({['A'], ['B'], ['C'], ['D']} : Finset (List Char)).card = 4 := by
        decide
      rw [h2] at h1
      simpa using h1.symm
    have hlenopts : opts.length = 4 := by
      simpa using hlen
    exact ⟨⟨⟨hq, ⟨⟨hlenopts, hforw⟩, hback⟩, fun kv hkv => hvals kv hkv⟩,
      optionKey_length (hforw ans hansmem), hansmem⟩, hdiff⟩

/-- Witness for `validator_accepts_iff` at a concrete accepted record. -/
theorem validator_accepts_iff_witness :
    (mkQuestion (chars "What is 2+2?")
        [(chars "A", chars "3"), (chars "B", chars "4"),
         (chars "C", chars "5"), (chars "D", chars "6")]
        (chars "B") (chars "easy")).isSome = true :=
  (validator_accepts_iff (chars "What is 2+2?")
      [(chars "A", chars "3"), (chars "B", chars "4"),
       (chars "C", chars "5"), (chars "D", chars "6")]
      (chars "B") (chars "easy") (by decide)).2
    (by refine ⟨by decide, by decide, by decide, by decide, by decide⟩)

/-! ## Parser helper lemmas -/

theorem pyLowerChar_cases (c : Char) :
    pyLowerChar c = c ∨ pyLowerChar c ∈ chars "abcdefghijklmnopqrstuvwxyz" := by
  unfold pyLowerChar
  split <;> first | (left; rfl) | (right; decide)

theorem pyLowerChar_lower_fix {d : Char}
    (h : d ∈ chars "abcdefghijklmnopqrstuvwxyz") : pyLowerChar d = d := by
  fin_cases h <;> rfl

theorem pyLowerChar_idem (c : Char) : pyLowerChar (pyLowerChar c) = pyLowerChar c := by
  rcases pyLowerChar_cases c with h | h
  · rw [h, h]
  · exact pyLowerChar_lower_fix h

theorem pyLower_idem (l : List Char) : pyLower (pyLower l) = pyLower l := by
  induction l with
  | nil => rfl
  | cons c l ih =>
    simp only [pyLower, List.map_cons] at *
    rw [pyLowerChar_idem]
    exact congrArg _ ih

theorem scanLine_difficulty_lower (s : ScanState) (line : List Char)
    (h : pyLower s.difficulty = s.difficulty) :
    pyLower (scanLine s line).difficulty = (scanLine s line).difficulty := by
  unfold scanLine
  split
  · split <;> simpa using h
  · split
    · simp [pyLower_idem]
    · split <;> simpa using h

theorem foldl_scan_difficulty (lines : List (List Char)) (s : ScanState)
    (h : pyLower s.difficulty = s.difficulty) :
    pyLower (lines.foldl scanLine s).difficulty = (lines.foldl scanLine s).difficulty := by
  induction lines generalizing s with
  | nil => simpa using h
  | cons l ls ih => exact ih _ (scanLine_difficulty_lower s l h)

theorem processBlock_some_eq {b : List Char} {q : Question}
    (h : processBlock b = some q) :
    ∃ qt rest, blockLines b = qt :: rest ∧
      mkQuestion qt (collectLines rest).options (collectLines rest).answer
        (collectLines rest).difficulty = some q := by
  unfold processBlock at h
  split at h
  · cases h
  · split at h
    · cases h
    case _ qt rest heq => exact ⟨qt, rest, heq, h⟩

theorem processBlock_valid {b : List Char} {q : Question}
    (h : processBlock b = some q) : questionOk q = true := by
  obtain ⟨qt, rest, _, hmk⟩ := processBlock_some_eq h
  exact (mkQuestion_valid hmk).2

theorem parse_mem_processBlock {t : List Char} {q : Question}
    (h : q ∈ parse_questions_from_text t) :
    ∃ b, processBlock b = some q := by
  unfold parse_questions_from_text at h
  split at h
  · cases h
  · obtain ⟨b, _, hb⟩ := List.mem_filterMap.1 h
    exact ⟨b, hb⟩

/-! ## C2 — the parser never raises and skips bad blocks -/

/-- C2: the parser is a total function whose every output passed
validation (the embedding of "never raises"); a block whose accumulated
options map does not have exactly 4 entries (for example one missing 1-3
of its option letters) is dropped (`processBlock` yields `none`); and a
dropped block leaves the questions of the remaining blocks untouched, so
parsing continues to later blocks of the same text. -/
theorem parser_skips_invalid_blocks :
    (∀ b, (collectLines (blockLines b).tail).options.length ≠ 4 →
        processBlock b = none) ∧
    (∀ b bs, processBlock b = none →
        parseBlocks (b :: bs) = parseBlocks bs) ∧
    (∀ t q, q ∈ parse_questions_from_text t → questionOk q = true) := by
  refine ⟨?_, ?_, ?_⟩
  · intro b h
    unfold processBlock
    split
    · rfl
    · split
      · rfl
      case _ qt rest heq =>
        rw [heq, List.tail_cons] at h
        unfold mkQuestion
        rw [if_neg]
        intro hv
        unfold questionValid optionsOk at hv
        simp only [Bool.and_eq_true, decide_eq_true_eq] at hv
        rcases hv with ⟨⟨⟨-, ⟨⟨⟨hlen, -⟩, -⟩, -⟩⟩, -⟩, -⟩
        exact h hlen
  · intro b bs h
    unfold parseBlocks
    rw [List.filterMap_cons, h]
  · intro t q hq
    obtain ⟨b, hb⟩ := parse_mem_processBlock hq
    exact processBlock_valid hb

/-- Witness for `parser_skips_invalid_blocks`: a block with only two of the
four option letters is dropped and the following block is unaffected. -/
theorem parser_skips_invalid_blocks_witness :
    parseBlocks
      [chars "Partial?\nDifficulty: easy\nA) 1\nB) 2\nCorrect Answer: A",
       chars "Full?\nDifficulty: easy\nA) 1\nB) 2\nC) 3\nD) 4\nCorrect Answer: A"] =
    parseBlocks
      [chars "Full?\nDifficulty: easy\nA) 1\nB) 2\nC) 3\nD) 4\nCorrect Answer: A"] :=
  parser_skips_invalid_blocks.2.1 _ _
    (parser_skips_invalid_blocks.1 _ (by decide))

/-! ## C3 — the exact parser scenario -/

/-- C3: the seven-line example text parses to exactly one question with
the expected fields. -/
theorem parser_scenario_exact :
    parse_questions_from_text
      (chars "Question 1: What is 2+2?\nDifficulty: easy\nA) 3\nB) 4\nC) 5\nD) 6\nCorrect Answer: B") =
    [⟨chars "What is 2+2?",
      [(chars "A", chars "3"), (chars "B", chars "4"),
       (chars "C", chars "5"), (chars "D", chars "6")],
      chars "B", chars "easy"⟩] := by
  decide

/-! ## C9 — the stored difficulty is lower-cased, not kept as provided -/

/-- C9 (claim as stated, refuted): a block whose difficulty line reads
"Difficulty: EASY" yields a stored difficulty "easy", not the trimmed
label text "EASY" — the parser lower-cases the difficulty at parse time
(`.strip().lower()`). -/
theorem difficulty_not_as_provided_counterexample :
    (parse_questions_from_text
        (chars "Question 1: Sum?\nDifficulty: EASY\nA) 1\nB) 2\nC) 3\nD) 4\nCorrect Answer: A")).map
      Question.difficulty = [chars "easy"] ∧
    pyStrip (chars "EASY") = chars "EASY" ∧
    chars "easy" ≠ chars "EASY" := by
  decide

/-- C9 (amended): every question produced by the parser stores its
difficulty trimmed and lower-cased; in particular the stored value is
invariant under lower-casing, so comparisons elsewhere are effectively
case-insensitive. -/
theorem parser_difficulty_lowercase :
    ∀ t q, q ∈ parse_questions_from_text t → pyLower q.difficulty = q.difficulty := by
  intro t q hq
  obtain ⟨b, hb⟩ := parse_mem_processBlock hq
  obtain ⟨qt, rest, _, hmk⟩ := processBlock_some_eq hb
  obtain ⟨hQ, _⟩ := mkQuestion_valid hmk
  subst hQ
  exact foldl_scan_difficulty rest ⟨[], [], []⟩ rfl

/-- Witness for `parser_difficulty_lowercase` at the counterexample
text. -/
theorem parser_difficulty_lowercase_witness :
    pyLower
        (⟨chars "Sum?",
          [(chars "A", chars "1"), (chars "B", chars "2"),
           (chars "C", chars "3"), (chars "D", chars "4")],
          chars "A", chars "easy"⟩ : Question).difficulty =
      (⟨chars "Sum?",
        [(chars "A", chars "1"), (chars "B", chars "2"),
         (chars "C", chars "3"), (chars "D", chars "4")],
        chars "A", chars "easy"⟩ : Question).difficulty :=
  parser_difficulty_lowercase
    (chars "Question 1: Sum?\nDifficulty: EASY\nA) 1\nB) 2\nC) 3\nD) 4\nCorrect Answer: A")
    _ (by decide)

/-! ## C4 — the selector -/

theorem pyLower_ne_nil {d : List Char} (hd : d ≠ []) : pyLower d ≠ [] := by
  cases d with
  | nil => exact absurd rfl hd
  | cons c l => simp [pyLower]

/-- With a non-empty difficulty, the code's filter (which also requires the
question's own difficulty to be truthy) coincides with a plain
case-insensitive comparison: an empty stored difficulty can never compare
equal to a non-empty one. -/
theorem difficultyFiltered_eq (all : List Question) (d : List Char) (hd : d ≠ []) :
    difficultyFiltered all (some d) =
      all.filter (fun q => pyLower q.difficulty = pyLower d) := by
  have hdef : difficultyFiltered all (some d) =
      if d = [] then all
      else all.filter
        (fun q => !q.difficulty.isEmpty && decide (pyLower q.difficulty = pyLower d)) :=
    rfl
  rw [hdef, if_neg hd]
  apply List.filter_congr
  intro q _
  cases hqd : q.difficulty.isEmpty
  · simp [hqd]
  · have h1 : q.difficulty = [] := List.isEmpty_iff.1 hqd
    have h2 : pyLower d ≠ [] := pyLower_ne_nil hd
    simp only [hqd, Bool.not_true, Bool.false_and]
    symm
    simp only [decide_eq_false_iff_not]
    intro hc
    rw [h1] at hc
    exact h2 (by simpa [pyLower] using hc.symm)

/-- C4: for every store, requested count and non-empty difficulty, every
possible result of `select_questions` has length
`min count (size of the case-insensitive difficulty filter)`, is a
sub-multiset (no element taken more often than it occurs — sampling
without replacement) of that filtered list, and is duplicate-free whenever
the filtered list is. -/
theorem select_questions_spec (all : List Question) (num : Nat) (d : List Char)
    (r : List Question) (hd : d ≠ [])
    (hsel : SelectSpec all num (some d) r) :
    r.length = min num (all.filter (fun q => pyLower q.difficulty = pyLower d)).length ∧
    List.Subperm r (all.filter (fun q => pyLower q.difficulty = pyLower d)) ∧
    ((all.filter (fun q => pyLower q.difficulty = pyLower d)).Nodup → r.Nodup) := by
  unfold SelectSpec at hsel
  rw [difficultyFiltered_eq all d hd] at hsel
  split at hsel
  case isTrue hlt =>
    obtain ⟨hlen, hsub⟩ := hsel
    refine ⟨by omega, hsub, ?_⟩
    intro hnd
    obtain ⟨l, hperm, hsubl⟩ := hsub
    exact (hperm.nodup_iff).1 (hnd.sublist hsubl)
  case isFalse hge =>
    subst hsel
    exact ⟨by omega, List.Subperm.refl _, fun h => h⟩

/-- Witness for `select_questions_spec`: a one-question store, count 5,
difficulty "easy", returning the whole filtered list. -/
theorem select_questions_spec_witness :
    let q : Question :=
      ⟨chars "Sum?",
        [(chars "A", chars "1"), (chars "B", chars "2"),
         (chars "C", chars "3"), (chars "D", chars "4")],
        chars "A", chars "easy"⟩
    List.length [q] =
        min 5 ([q].filter
          (fun x => pyLower x.difficulty = pyLower (chars "easy"))).length ∧
    List.Subperm [q]
        ([q].filter (fun x => pyLower x.difficulty = pyLower (chars "easy"))) ∧
    (([q].filter
        (fun x => pyLower x.difficulty = pyLower (chars "easy"))).Nodup →
      List.Nodup [q]) :=
  select_questions_spec _ 5 (chars "easy") _ (by decide)
    (by unfold SelectSpec; rw [if_neg (by decide)]; decide)

/-! ## C5 and C10 — store loading -/

/-- C5: a missing store file and a store file whose content fails to parse
as JSON both yield the empty collection without an uncaught exception. -/
theorem store_load_missing_or_malformed :
    load_all_questions_from_json none = Except.ok [] ∧
    load_all_questions_from_json (some none) = Except.ok [] :=
  ⟨rfl, rfl⟩

/-- C10: a store file holding valid JSON whose top-level value is not
iterable — the number 5, `true`, or `null` — makes
`load_all_questions_from_json` raise an uncaught `TypeError` (iterating a
non-iterable) instead of recovering with an empty collection. -/
theorem store_load_noniterable_raises :
    load_all_questions_from_json (some (some (Json.num 5))) =
      Except.error LoadErr.typeError ∧
    load_all_questions_from_json (some (some (Json.bool true))) =
      Except.error LoadErr.typeError ∧
    load_all_questions_from_json (some (some Json.null)) =
      Except.error LoadErr.typeError :=
  ⟨rfl, rfl, rfl⟩

/-! ## C6 — out-of-bounds answer check -/

/-- C6: an answer-check request whose index is at least the collection
length fails with the invalid-index condition, surfaced as HTTP 400; the
handler returns before any lookup into the collection. -/
theorem answer_check_out_of_bounds (qs : List Question) (a : UserAnswer)
    (h : (qs.length : Int) ≤ a.question_index) :
    check_user_answer qs a = Except.error HttpErr.invalidIndex ∧
    statusCode HttpErr.invalidIndex = 400 := by
  refine ⟨?_, rfl⟩
  unfold check_user_answer
  rw [dif_pos (Or.inr h)]

/-- Witness for `answer_check_out_of_bounds`: index 999 against a
5-question store. -/
theorem answer_check_out_of_bounds_witness :
    check_user_answer
        (List.replicate 5
          ⟨chars "Sum?",
            [(chars "A", chars "1"), (chars "B", chars "2"),
             (chars "C", chars "3"), (chars "D", chars "4")],
            chars "A", chars "easy"⟩)
        ⟨999, chars "A"⟩ = Except.error HttpErr.invalidIndex ∧
    statusCode HttpErr.invalidIndex = 400 :=
  answer_check_out_of_bounds _ _ (by decide)

/-! ## C7 — case-insensitive answer checking -/

/-- C7: the `UserAnswer` validator upper-cases the submitted option, so a
store whose question 0 has stored answer "B" answers the request
`(question_index 0, user_option "b")` with `is_correct = true` and
`correct_answer = "B"`. -/
theorem answer_check_case_insensitive (qs : List Question) (h : 0 < qs.length)
    (hans : (qs.get ⟨0, h⟩).answer = chars "B") (ua : UserAnswer)
    (hua : mkUserAnswer 0 (chars "b") = some ua) :
    check_user_answer qs ua =
      Except.ok ⟨0, chars "B", true, chars "B"⟩ := by
  have heval : mkUserAnswer 0 (chars "b") = some ⟨0, chars "B"⟩ := by decide
  rw [heval] at hua
  have hua' : ua = ⟨0, chars "B"⟩ := (Option.some.inj hua).symm
  subst hua'
  cases qs with
  | nil => simp at h
  | cons q0 qs' =>
    have hq0 : q0.answer = chars "B" := hans
    obtain ⟨qq, oo, aa, dd⟩ := q0
    simp only at hq0
    subst hq0
    unfold check_user_answer
    split
    case isTrue hcond =>
      exfalso
      have hidx : (⟨0, chars "B"⟩ : UserAnswer).question_index = 0 := rfl
      rw [hidx] at hcond
      simp only [List.length_cons] at hcond
      rcases hcond with h1 | h1
      · exact absurd h1 (by decide)
      · omega
    case isFalse => rfl

/-- Witness for `answer_check_case_insensitive` at a one-question store. -/
theorem answer_check_case_insensitive_witness :
    check_user_answer
        [⟨chars "Sum?",
          [(chars "A", chars "1"), (chars "B", chars "2"),
           (chars "C", chars "3"), (chars "D", chars "4")],
          chars "B", chars "easy"⟩]
        ⟨0, chars "B"⟩ =
      Except.ok ⟨0, chars "B", true, chars "B"⟩ :=
  answer_check_case_insensitive _ (by decide) (by decide) _ (by decide)

/-! ## C8 — the 500 branch of the answer check is unreachable for loaded
stores -/

theorem jsonToQuestion_valid {fields : List (List Char × Json)} {q : Question}
    (h : jsonToQuestion fields = some q) : questionOk q = true := by
  unfold jsonToQuestion at h
  split at h
  · split at h
    · exact (mkQuestion_valid h).2
    · cases h
  · cases h

theorem processElement_some_valid {e : Json} {q : Question}
    (h : processElement e = Except.ok (some q)) : questionOk q = true := by
  unfold processElement at h
  split at h
  case _ fields =>
    split at h
    case _ q' hjq =>
      simp only [Except.ok.injEq, Option.some.injEq] at h
      subst h
      exact jsonToQuestion_valid hjq
    case _ hjq =>
      split at h
      · simp at h
      · split at h <;> simp_all
  case _ => cases h

theorem loadItems_ok_valid :
    ∀ (items : List Json) (qs : List Question),
      loadItems items = Except.ok qs → ∀ q ∈ qs, questionOk q = true := by
  intro items
  induction items with
  | nil =>
    intro qs h q hq
    cases h
    cases hq
  | cons e rest ih =>
    intro qs h q hq
    unfold loadItems at h
    split at h
    · cases h
    · exact ih _ h q hq
    case _ q0 heq =>
      cases hrest : loadItems rest with
      | error err => rw [hrest] at h; cases h
      | ok qs' =>
        rw [hrest] at h
        simp only [Except.map] at h
        cases h
        rcases hq with _ | ⟨_, hq⟩
        · exact processElement_some_valid heq
        · exact ih _ hrest q hq

theorem load_ok_valid {file : Option (Option Json)} {qs : List Question}
    (h : load_all_questions_from_json file = Except.ok qs) :
    ∀ q ∈ qs, questionOk q = true := by
  unfold load_all_questions_from_json at h
  split at h
  any_goals (cases h; intro q hq; cases hq)
  · exact loadItems_ok_valid _ _ h
  all_goals cases h

/-- C8: against any collection produced by `load_all_questions_from_json`,
the answer-check handler can never fail with the internal-condition (HTTP
500) branch: every stored record passed validation, so its answer is one
of the option keys A-D and is non-empty after strip-and-upper. -/
theorem stored_answer_never_missing (file : Option (Option Json))
    (qs : List Question) (a : UserAnswer)
    (hload : load_all_questions_from_json file = Except.ok qs) :
    check_user_answer qs a ≠ Except.error HttpErr.missingAnswer := by
  unfold check_user_answer
  split
  · intro hc
    simp at hc
  case _ hcond =>
    have hb : a.question_index.toNat < qs.length := by
      rcases not_or.1 hcond with ⟨h1, h2⟩
      omega
    have hmem : qs.get ⟨a.question_index.toNat, hb⟩ ∈ qs := qs.get_mem _ _
    have hvalid := load_ok_valid hload _ hmem
    have hne : storedAnswerAt qs a.question_index.toNat hb ≠ [] :=
      optionKey_strip_upper_ne_nil (questionOk_answer_mem hvalid)
    split
    case isTrue hemp => exact absurd hemp hne
    · intro hc
      cases hc

/-- Witness for `stored_answer_never_missing`: a one-record JSON store and
the request `(0, "A")`. -/
theorem stored_answer_never_missing_witness :
    check_user_answer
        [⟨chars "Sum?",
          [(chars "A", chars "1"), (chars "B", chars "2"),
           (chars "C", chars "3"), (chars "D", chars "4")],
          chars "A", chars "easy"⟩]
        ⟨0, chars "A"⟩ ≠ Except.error HttpErr.missingAnswer :=
  stored_answer_never_missing
    (some (some (Json.arr
      [Json.obj
        [(chars "question", Json.str (chars "Sum?")),
         (chars "options", Json.obj
           [(chars "A", Json.str (chars "1")), (chars "B", Json.str (chars "2")),
            (chars "C", Json.str (chars "3")), (chars "D", Json.str (chars "4"))]),
         (chars "answer", Json.str (chars "A")),
         (chars "difficulty", Json.str (chars "easy"))]])))
    _ _ (by rfl)
